import Mathlib

/-!
Verification of the activepieces repository against its specification.

Part 1 models the piece discovery/loading utilities (`findAllPieces`,
`loadPieceFromFolder`, `validateMetadata`, `validateSupportedRelease`,
`validatePremiumPiece`, `byDisplayNameIgnoreCase`) from the server file-pieces
utility module.  Filesystem reads and dynamic module imports are modelled as a
pure `PieceFolder` record describing what one piece folder contains; a thrown
exception during read/import/extract is modelled as `none`.

Part 2 models the flow-execution engine.  The engine data model
(`EngineConstants`, the action builders) follows the engine test helper, which
constructs these values directly; the interpreter, executors, retry policy and
variable resolver are modelled from the specification since their sources are
not part of this tree.
-/

/-- Piece categories; only `PREMIUM` is inspected by the code under study, the
remaining categories are collapsed into `OTHER`. -/
inductive PieceCategory where
  | PREMIUM
  | OTHER (label : String)
deriving DecidableEq

/-- `PackageJson` as declared in the module: name, version, keywords. -/
structure PackageJson where
  name : String
  version : String
  keywords : List String
deriving DecidableEq

/-- The shape of `PieceMetadata` as used by this module: identity fields,
optional supported-release bounds, optional directory path and categories. -/
structure PieceMetadata where
  name : String
  displayName : String
  version : String
  minimumSupportedRelease : Option String
  maximumSupportedRelease : Option String
  directoryPath : Option String
  categories : Option (List PieceCategory)
deriving DecidableEq

/-- Does `pre` occur at the head of `l`? (helper for substring search). -/
def charListHasPrefix : List Char → List Char → Bool
  | [], _ => true
  | _ :: _, [] => false
  | a :: as, b :: bs => a = b && charListHasPrefix as bs

/-- Does `needle` occur contiguously anywhere in the second list? -/
def charListContains (needle : List Char) : List Char → Bool
  | [] => needle.isEmpty
  | b :: rest => charListHasPrefix needle (b :: rest) || charListContains needle rest

/-- Model of JavaScript `hay.includes(needle)` for strings. -/
def strIncludes (hay needle : String) : Bool :=
  charListContains needle.data hay.data

/-- Parse one numeric semver identifier: nonempty, digits only, and no leading
zero unless the identifier is exactly `0`. -/
def semverNumericPart (s : List Char) : Option Nat :=
  match s with
  | [] => none
  | c :: rest =>
    if (c :: rest).all Char.isDigit then
      if c = '0' && rest ≠ [] then none
      else some ((c :: rest).foldl (fun n ch => n * 10 + (ch.toNat - 48)) 0)
    else none

/-- Split a character list at every dot. -/
def splitOnDot : List Char → List (List Char)
  | [] => [[]]
  | c :: rest =>
    if c = '.' then [] :: splitOnDot rest
    else
      match splitOnDot rest with
      | [] => [[c]]
      | g :: gs => (c :: g) :: gs

/-- Model of the external semver library restricted to plain
`MAJOR.MINOR.PATCH` versions, the only shape the code under study uses. -/
def semverParse (s : String) : Option (Nat × Nat × Nat) :=
  match splitOnDot s.data with
  | [a, b, c] =>
    match semverNumericPart a, semverNumericPart b, semverNumericPart c with
    | some x, some y, some z => some (x, y, z)
    | _, _, _ => none
  | _ => none

/-- Model of `semver.valid` (as a Boolean validity test). -/
def semverValid (s : String) : Bool :=
  (semverParse s).isSome

/-- Strict lexicographic order on parsed version triples. -/
def semverTripleLt : Nat × Nat × Nat → Nat × Nat × Nat → Bool
  | (a1, b1, c1), (a2, b2, c2) =>
    decide (a1 < a2) || (decide (a1 = a2) &&
      (decide (b1 < b2) || (decide (b1 = b2) && decide (c1 < c2))))

/-- Model of `semver.gt`; the call sites under study only reach it with valid
versions, unparsable input is mapped to `false`. -/
def semverGt (a b : String) : Bool :=
  match semverParse a, semverParse b with
  | some x, some y => semverTripleLt y x
  | _, _ => false

/-- Model of `semver.lt`; the call sites under study only reach it with valid
versions, unparsable input is mapped to `false`. -/
def semverLt (a b : String) : Bool :=
  match semverParse a, semverParse b with
  | some x, some y => semverTripleLt x y
  | _, _ => false

/-- `validateSupportedRelease`: reject an invalid minimum bound, then an
invalid maximum bound, then a minimum strictly above the maximum.  A thrown
`Error` is modelled as `Except.error` carrying the message. -/
def validateSupportedRelease (minRelease maxRelease : Option String) :
    Except String Unit :=
  if minRelease.isSome && !semverValid (minRelease.getD "") then
    .error "[validateSupportedRelease] minimumSupportedRelease should be a valid semver version"
  else if maxRelease.isSome && !semverValid (maxRelease.getD "") then
    .error "[validateSupportedRelease] maximumSupportedRelease should be a valid semver version"
  else if minRelease.isSome && maxRelease.isSome &&
      semverGt (minRelease.getD "") (maxRelease.getD "") then
    .error "[validateSupportedRelease] minimumSupportedRelease should be less than maximumSupportedRelease"
  else .ok ()

/-- `validatePremiumPiece`: a piece under an `/ee/` directory must carry the
`PREMIUM` category, and a `PREMIUM` piece must declare a minimum supported
release of at least `0.27.1`.  JavaScript truthiness of
`piece.minimumSupportedRelease` (absent or the empty string are falsy) is
modelled by defaulting the option to the empty string. -/
def validatePremiumPiece (piece : PieceMetadata) : Except String Unit :=
  if (match piece.directoryPath with
      | some d => strIncludes d "/ee/"
      | none => false) && !(piece.categories.getD []).contains PieceCategory.PREMIUM then
    .error "[validatePremiumPiece] Premium pieces must be in the premium category"
  else if (piece.categories.getD []).contains PieceCategory.PREMIUM &&
      (decide (piece.minimumSupportedRelease.getD "" = "") ||
        semverLt (piece.minimumSupportedRelease.getD "") "0.27.1") then
    .error "[validatePremiumPiece] Premium pieces must have a minimum supported release of 0.27.1 or higher"
  else .ok ()

/-- `validateMetadata`: release-bound validation then premium validation; the
first thrown error propagates. -/
def validateMetadata (pieceMetadata : PieceMetadata) : Except String Unit :=
  match validateSupportedRelease
      pieceMetadata.minimumSupportedRelease
      pieceMetadata.maximumSupportedRelease with
  | .ok _ => validatePremiumPiece pieceMetadata
  | .error e => .error e

/-- The part of a piece module consumed by `loadPieceFromFolder`: the piece
object's own release bounds and the fields of its `metadata()` result that
survive the later field overrides (display name and categories). -/
structure PieceModule where
  minimumSupportedRelease : Option String
  maximumSupportedRelease : Option String
  metadataDisplayName : String
  metadataCategories : Option (List PieceCategory)
deriving DecidableEq

/-- The observable content of one piece folder.  `packageJson = none` models a
failing `readPackageJson`; `piece = none` models a failing dynamic import or
`extractPieceFromModule`. -/
structure PieceFolder where
  path : String
  packageJson : Option PackageJson
  piece : Option PieceModule
deriving DecidableEq

/-- The metadata record `loadPieceFromFolder` assembles before validation:
name/version from package.json, the folder as directory path, and release
bounds defaulted to `0.0.0` / `99999.99999.9999` when the piece omits them. -/
def builtMetadata (path : String) (pj : PackageJson) (pc : PieceModule) :
    PieceMetadata where
  name := pj.name
  displayName := pc.metadataDisplayName
  version := pj.version
  minimumSupportedRelease := some (pc.minimumSupportedRelease.getD "0.0.0")
  maximumSupportedRelease := some (pc.maximumSupportedRelease.getD "99999.99999.9999")
  directoryPath := some path
  categories := pc.metadataCategories

/-- `loadPieceFromFolder`: read package.json, import and extract the piece,
assemble metadata, validate it; any failure is caught and yields `null`. -/
def loadPieceFromFolder (folder : PieceFolder) : Option PieceMetadata :=
  match folder.packageJson, folder.piece with
  | some pj, some pc =>
    let metadata := builtMetadata folder.path pj pc
    match validateMetadata metadata with
    | .ok _ => some metadata
    | .error _ => none
  | _, _ => none

/-- Uppercase a string character by character (model of `toUpperCase`). -/
def strUpper (s : String) : String :=
  ⟨s.data.map Char.toUpper⟩

/-- `byDisplayNameIgnoreCase` as the ordering it induces on the sorted output:
ascending comparison of the uppercased display names. -/
def byDisplayNameIgnoreCase (a b : PieceMetadata) : Prop :=
  (strUpper a.displayName).data ≤ (strUpper b.displayName).data

instance : DecidableRel byDisplayNameIgnoreCase := fun a b =>
  inferInstanceAs (Decidable ((strUpper a.displayName).data ≤ (strUpper b.displayName).data))

instance : IsTotal PieceMetadata byDisplayNameIgnoreCase :=
  ⟨fun a b => le_total (strUpper a.displayName).data (strUpper b.displayName).data⟩

instance : IsTrans PieceMetadata byDisplayNameIgnoreCase :=
  ⟨fun _ _ _ hab hbc => le_trans hab hbc⟩

/-- `findAllPieces`: load every discovered folder, drop the failures, sort the
survivors by display name ignoring case (a stable sort, like the host sort). -/
def findAllPieces (folders : List PieceFolder) : List PieceMetadata :=
  List.insertionSort byDisplayNameIgnoreCase (folders.filterMap loadPieceFromFolder)

/-! ## Part 2: the flow-execution engine -/

namespace Engine

/-- Flow version lifecycle states used by the engine test helper. -/
inductive FlowVersionState where
  | DRAFT
  | LOCKED
deriving DecidableEq

/-- Progress-reporting modes. -/
inductive ProgressUpdateType where
  | NONE
  | WEBHOOK_RESPONSE
  | TEST_FLOW
deriving DecidableEq

/-- The retry-policy record of the Engine Constants. -/
structure RetryConstants where
  maxAttempts : Nat
  retryExponential : Nat
  retryInterval : Nat
deriving DecidableEq

/-- The Variable Resolver instance as constructed by the test helper. -/
structure VariableService where
  projectId : String
  engineToken : String
  apiUrl : String
deriving DecidableEq

/-- Runtime values flowing through a run. -/
inductive Value where
  | null
  | bool (b : Bool)
  | num (n : Int)
  | str (s : String)
  | list (items : List Value)
  | obj (fields : List (String × Value))

/-- Engine Constants: the immutable per-run bundle, with fields in the order
of the constructor call in the engine test helper. -/
structure EngineConstants where
  flowId : String
  flowVersionId : String
  flowVersionState : FlowVersionState
  flowRunId : String
  publicUrl : String
  internalApiUrl : String
  retryConstants : RetryConstants
  engineToken : String
  projectId : String
  variableService : VariableService
  testSingleStepMode : Bool
  progressUpdateType : ProgressUpdateType
  serverHandlerId : Option String
  httpRequestId : Option String
  resumePayload : Option Value

/-- `Partial<EngineConstants>`: every field optional. -/
structure EngineConstantsParams where
  flowId : Option String := none
  flowVersionId : Option String := none
  flowVersionState : Option FlowVersionState := none
  flowRunId : Option String := none
  publicUrl : Option String := none
  internalApiUrl : Option String := none
  retryConstants : Option RetryConstants := none
  engineToken : Option String := none
  projectId : Option String := none
  variableService : Option VariableService := none
  testSingleStepMode : Option Bool := none
  progressUpdateType : Option ProgressUpdateType := none
  serverHandlerId : Option (Option String) := none
  httpRequestId : Option (Option String) := none
  resumePayload : Option Value := none

/-- `generateMockEngineConstants` from the engine test helper: each field
falls back to the mock default when the caller omits it. -/
def generateMockEngineConstants (params : EngineConstantsParams) : EngineConstants :=
  EngineConstants.mk
    (params.flowId.getD "flowId")
    (params.flowVersionId.getD "flowVersionId")
    (params.flowVersionState.getD FlowVersionState.DRAFT)
    (params.flowRunId.getD "flowRunId")
    (params.publicUrl.getD "http://127.0.0.1:3000")
    (params.internalApiUrl.getD "http://127.0.0.1:3000")
    (params.retryConstants.getD ⟨2, 1, 1⟩)
    (params.engineToken.getD "engineToken")
    (params.projectId.getD "projectId")
    (params.variableService.getD ⟨"projectId", "engineToken", "http://127.0.0.1:3000"⟩)
    (params.testSingleStepMode.getD false)
    (params.progressUpdateType.getD ProgressUpdateType.NONE)
    (params.serverHandlerId.getD none)
    (params.httpRequestId.getD none)
    params.resumePayload

/-- Per-action error-handling options (absent flags default to false). -/
structure ActionErrorHandlingOptions where
  continueOnFailure : Bool
  retryOnFailure : Bool
deriving DecidableEq

/-- One branch condition; the specification leaves the operator set open, so
conditions are data evaluated by a run-level hook. -/
structure BranchCondition where
  firstValue : String
  secondValue : String
  operatorName : String
deriving DecidableEq

/-- Source code attached to a CODE action. -/
structure SourceCode where
  packageJson : String
  code : String
deriving DecidableEq

/-- The flow action graph.  Kinds and fields follow the engine test helper
builders; per the specification the non-branching kinds own an optional
successor chain while BRANCH owns the two conditional sub-chains.  As an
inductive tree, every sub-chain is exclusively owned and acyclic. -/
inductive Action where
  | code (name displayName : String) (input : List (String × String))
      (sourceCode : SourceCode)
      (errorHandlingOptions : Option ActionErrorHandlingOptions)
      (nextAction : Option Action) (valid : Bool)
  | branch (name displayName : String)
      (conditions : List (List BranchCondition))
      (onSuccessAction onFailureAction : Option Action) (valid : Bool)
  | loopOnItems (name displayName : String) (items : String)
      (firstLoopAction : Option Action) (nextAction : Option Action) (valid : Bool)
  | piece (name displayName : String) (pieceName actionName : String)
      (input : List (String × String))
      (errorHandlingOptions : Option ActionErrorHandlingOptions)
      (nextAction : Option Action) (valid : Bool)

/-- The stable name of an action. -/
def Action.name : Action → String
  | .code n _ _ _ _ _ _ => n
  | .branch n _ _ _ _ _ => n
  | .loopOnItems n _ _ _ _ _ => n
  | .piece n _ _ _ _ _ _ _ => n

/-- The `valid` flag of an action. -/
def Action.validFlag : Action → Bool
  | .code _ _ _ _ _ _ v => v
  | .branch _ _ _ _ _ v => v
  | .loopOnItems _ _ _ _ _ v => v
  | .piece _ _ _ _ _ _ _ v => v

/-- The linear successor of an action; BRANCH carries none, its continuations
are the two conditional sub-chains. -/
def Action.nextActionOf : Action → Option Action
  | .code _ _ _ _ _ next _ => next
  | .branch _ _ _ _ _ _ => none
  | .loopOnItems _ _ _ _ next _ => next
  | .piece _ _ _ _ _ _ next _ => next

/-- Is the action a BRANCH? -/
def Action.isBranch : Action → Bool
  | .branch _ _ _ _ _ _ => true
  | _ => false

/-- All root actions of sub-structures directly owned by an action: the
successor chain, the branch sub-chains, the loop body. -/
def Action.childActions : Action → List Action
  | .code _ _ _ _ _ next _ => next.toList
  | .branch _ _ _ onS onF _ => onS.toList ++ onF.toList
  | .loopOnItems _ _ _ first next _ => first.toList ++ next.toList
  | .piece _ _ _ _ _ _ next _ => next.toList

/-- The recorded outcome of one executed step. -/
structure StepOutput where
  output : Value
  success : Bool
  errorMessage : Option String

/-- The Run Context: the append-only mapping from action name to recorded
step output, in execution order. -/
abbrev RunContext := List (String × StepOutput)

/-- Modelled from the spec: the interpreter control status while walking the
chain (running, terminally failed at an action, or paused at an action). -/
inductive ExecStatus where
  | running
  | failedAt (actionName : String) (error : String)
  | pausedAt (actionName : String)

/-- The interpreter state: accumulated Run Context, the trace of dispatched
action names, and the control status. -/
structure FlowState where
  ctx : RunContext
  trace : List String
  status : ExecStatus

/-- The outcome of one invocation of a step's underlying operation. -/
inductive PieceStepResult where
  | ok (output : Value)
  | err (message : String)
  | paused

/-- Modelled from the spec: the external collaborators of the interpreter —
code evaluation, the piece capability provider (§6), condition evaluation
(whose operator set §9 leaves open) and items-expression resolution.  Code and
piece runners receive the attempt number so retries are observable. -/
structure EngineHooks where
  runCode : String → Nat → Except String Value
  runPiece : String → Nat → PieceStepResult
  evalCondition : BranchCondition → RunContext → Bool
  resolveItems : String → RunContext → List Value

/-- Modelled from the spec: the exponential backoff of §4.2, the delay taken
after failed attempt number `attempt`: retryInterval * retryExponential ^
(attempt - 1). -/
def retryDelay (rc : RetryConstants) (attempt : Nat) : Nat :=
  rc.retryInterval * rc.retryExponential ^ (attempt - 1)

/-- Modelled from the spec: the retry loop of §4.2 starting at attempt number
`attempt` with `remaining` invocations allowed.  Returns the final result, the
number of invocations made, and the list of inter-attempt delays. -/
def runAttemptsAux (run : Nat → PieceStepResult) (rc : RetryConstants) :
    Nat → Nat → PieceStepResult × Nat × List Nat
  | _, 0 => (.err "retry policy allows no attempts", 0, [])
  | attempt, 1 => (run attempt, 1, [])
  | attempt, remaining + 2 =>
    match run attempt with
    | .ok v => (.ok v, 1, [])
    | .paused => (.paused, 1, [])
    | .err _ =>
      let r := runAttemptsAux run rc (attempt + 1) (remaining + 1)
      (r.1, r.2.1 + 1, retryDelay rc attempt :: r.2.2)

/-- Modelled from the spec: the retry policy of §4.2 — invocations are capped
at the Engine Constants maxAttempts. -/
def runAttempts (run : Nat → PieceStepResult) (rc : RetryConstants) :
    PieceStepResult × Nat × List Nat :=
  runAttemptsAux run rc 1 rc.maxAttempts

/-- A step invocation under the action's error-handling options: the retry
loop when retry-on-failure is set, a single attempt otherwise. -/
def runStepWithPolicy (run : Nat → PieceStepResult)
    (eh : Option ActionErrorHandlingOptions) (rc : RetryConstants) :
    PieceStepResult × Nat × List Nat :=
  if (eh.map (fun o => o.retryOnFailure)).getD false then runAttempts run rc
  else (run 1, 1, [])

/-- Continue-on-failure flag of an action (absent options default to false). -/
def continuesOnFailure (eh : Option ActionErrorHandlingOptions) : Bool :=
  (eh.map (fun o => o.continueOnFailure)).getD false

/-- Adapt a code evaluation result to a step result (code never pauses). -/
def codeResult : Except String Value → PieceStepResult
  | .ok v => .ok v
  | .error e => .err e

/-- Modelled from the spec: branch condition evaluation (§4.3) — an implicit
AND inside each ordered group, OR across groups, short-circuiting
left-to-right. -/
def evalConditionGroups (eval : BranchCondition → Bool)
    (groups : List (List BranchCondition)) : Bool :=
  groups.any (fun g => g.all eval)

/-- `buildSimpleLoopAction` from the engine test helper. -/
def buildSimpleLoopAction (name : String) (loopItems : String)
    (firstLoopAction : Option Action) : Action :=
  .loopOnItems name "Loop" loopItems firstLoopAction none true

/-- `buildActionWithOneCondition` from the engine test helper: a branch named
`branch` whose conditions are a single one-condition group. -/
def buildActionWithOneCondition (condition : BranchCondition)
    (onSuccessAction onFailureAction : Option Action) : Action :=
  .branch "branch" "Your Branch Name" [[condition]] onSuccessAction onFailureAction true

/-- `buildCodeAction` from the engine test helper. -/
def buildCodeAction (name : String) (input : List (String × String))
    (errorHandlingOptions : Option ActionErrorHandlingOptions)
    (nextAction : Option Action) : Action :=
  .code name "Your Action Name" input ⟨"", ""⟩ errorHandlingOptions nextAction true

/-- `buildPieceAction` from the engine test helper. -/
def buildPieceAction (name : String) (input : List (String × String))
    (pieceName actionName : String)
    (errorHandlingOptions : Option ActionErrorHandlingOptions)
    (nextAction : Option Action) : Action :=
  .piece name "Your Action Name" pieceName actionName input errorHandlingOptions nextAction true

/-- The value seeded into the iteration-scoped context for one loop turn. -/
def iterationOutput (index : Nat) (item : Value) : Value :=
  .obj [("index", .num index), ("item", item)]

mutual

/-- Modelled from the spec: the Flow Interpreter of §4.1, whose source is not
in this tree.  It follows the six numbered steps: fail on an invalid action,
dispatch by kind, record the output or error under the action name, apply the
error-handling policy, halt on a pause signal, else advance to the designated
continuation.  `fuel` bounds recursion depth; `none` means fuel ran out. -/
def executeChain (hooks : EngineHooks) (constants : EngineConstants) :
    Nat → Option Action → FlowState → Option FlowState
  | 0, _, _ => none
  | _ + 1, none, s => some s
  | fuel + 1, some a, s =>
    match s.status with
    | .running =>
      if a.validFlag = false then
        some { s with status := .failedAt a.name "Invalid action detected" }
      else
        match a with
        | .code name _ _ _ eh next _ =>
          let r := runStepWithPolicy (fun k => codeResult (hooks.runCode name k))
            eh constants.retryConstants
          (match r.1 with
           | .ok v =>
             executeChain hooks constants fuel next
               { s with ctx := s.ctx ++ [(name, ⟨v, true, none⟩)],
                        trace := s.trace ++ [name] }
           | .err e =>
             let s1 := { s with ctx := s.ctx ++ [(name, ⟨.null, false, some e⟩)],
                                trace := s.trace ++ [name] }
             if continuesOnFailure eh then executeChain hooks constants fuel next s1
             else some { s1 with status := .failedAt name e }
           | .paused =>
             some { s with trace := s.trace ++ [name], status := .pausedAt name })
        | .piece name _ _ _ _ eh next _ =>
          let r := runStepWithPolicy (hooks.runPiece name) eh constants.retryConstants
          (match r.1 with
           | .ok v =>
             executeChain hooks constants fuel next
               { s with ctx := s.ctx ++ [(name, ⟨v, true, none⟩)],
                        trace := s.trace ++ [name] }
           | .err e =>
             let s1 := { s with ctx := s.ctx ++ [(name, ⟨.null, false, some e⟩)],
                                trace := s.trace ++ [name] }
             if continuesOnFailure eh then executeChain hooks constants fuel next s1
             else some { s1 with status := .failedAt name e }
           | .paused =>
             some { s with trace := s.trace ++ [name], status := .pausedAt name })
        | .branch name _ conditions onS onF _ =>
          let cond := evalConditionGroups (fun c => hooks.evalCondition c s.ctx) conditions
          executeChain hooks constants fuel (if cond then onS else onF)
            { s with ctx := s.ctx ++ [(name, ⟨.bool cond, true, none⟩)],
                     trace := s.trace ++ [name] }
        | .loopOnItems name _ itemsExpr first next _ =>
          let items := hooks.resolveItems itemsExpr s.ctx
          match executeLoopItems hooks constants fuel first name items 0 s.ctx
              (s.trace ++ [name]) with
          | none => none
          | some (.running, outs, tr) =>
            executeChain hooks constants fuel next
              { ctx := s.ctx ++ [(name, ⟨.list outs, true, none⟩)],
                trace := tr, status := .running }
          | some (.failedAt n e, _, tr) =>
            some { ctx := s.ctx ++ [(name, ⟨.null, false, some e⟩)],
                   trace := tr, status := .failedAt n e }
          | some (.pausedAt n, _, tr) =>
            some { ctx := s.ctx, trace := tr, status := .pausedAt n }
    | _ => some s

/-- Modelled from the spec: the Loop executor of §4.3, whose source is not in
this tree.  Each resolved item runs the body chain once inside an
iteration-scoped context seeded with the current item and index; body writes
are not promoted to the parent context; body failure aborts remaining
iterations (fail-fast).  Returns the terminal status, the per-iteration
outputs, and the accumulated trace. -/
def executeLoopItems (hooks : EngineHooks) (constants : EngineConstants) :
    Nat → Option Action → String → List Value → Nat → RunContext → List String →
    Option (ExecStatus × List Value × List String)
  | 0, _, _, _, _, _, _ => none
  | _ + 1, _, _, [], _, _, trace => some (.running, [], trace)
  | fuel + 1, first, loopName, item :: rest, index, parentCtx, trace =>
    match executeChain hooks constants fuel first
        { ctx := parentCtx ++ [(loopName, ⟨iterationOutput index item, true, none⟩)],
          trace := trace, status := .running } with
    | none => none
    | some s1 =>
      match s1.status with
      | .running =>
        match executeLoopItems hooks constants fuel first loopName rest (index + 1)
            parentCtx s1.trace with
        | none => none
        | some (st, outs, tr) => some (st, iterationOutput index item :: outs, tr)
      | .failedAt n e => some (.failedAt n e, [], s1.trace)
      | .pausedAt n => some (.pausedAt n, [], s1.trace)

end

/-- Modelled from the spec: the terminal Run Outcome (§3). -/
inductive FlowVerdict where
  | succeeded (ctx : RunContext)
  | failed (actionName : String) (error : String) (ctx : RunContext)
  | paused (actionName : String) (ctx : RunContext)

/-- Modelled from the spec: the `executeFlow` entry point of §6, starting from
the root action with an empty initial Run Context. -/
def executeFlow (hooks : EngineHooks) (constants : EngineConstants)
    (fuel : Nat) (root : Option Action) : Option FlowVerdict :=
  match executeChain hooks constants fuel root ⟨[], [], .running⟩ with
  | none => none
  | some s =>
    match s.status with
    | .running => some (.succeeded s.ctx)
    | .failedAt n e => some (.failed n e s.ctx)
    | .pausedAt n => some (.paused n s.ctx)

/-- A linear chain of code actions built with the test helper builder, one
action per listed name. -/
def linearChain : List String → Option Action
  | [] => none
  | n :: rest => some (buildCodeAction n [] none (linearChain rest))

/-- Dotted-path access into a structured value. -/
def Value.getPath : Value → List String → Option Value
  | v, [] => some v
  | .obj fields, key :: rest =>
    (match fields.lookup key with
     | some v1 => Value.getPath v1 rest
     | none => none)
  | _, _ :: _ => none

/-- Modelled from the spec: template inputs of the Variable Resolver (§4.4),
whose source is not in this tree — literal text, a reference to a recorded
step output by name and dotted path, or a pair of sub-templates. -/
inductive Template where
  | lit (text : String)
  | ref (stepName : String) (path : List String)
  | pair (first second : Template)

/-- Modelled from the spec: the distinct resolution error kinds of §7. -/
inductive ResolveError where
  | missingStep (stepName : String)
  | missingPath (stepName : String) (path : List String)
deriving DecidableEq

/-- Step names referenced by a template. -/
def templateRefs : Template → List String
  | .lit _ => []
  | .ref n _ => [n]
  | .pair a b => templateRefs a ++ templateRefs b

/-- Modelled from the spec: the Variable Resolver of §4.4, whose source is not
in this tree.  Resolution is pure and fails with a distinct `ResolveError`
when a referenced step name is absent from the Run Context; it never
substitutes a silent empty value. -/
def resolveTemplate : Template → RunContext → Except ResolveError Value
  | .lit t, _ => .ok (.str t)
  | .ref stepName path, ctx =>
    (match ctx.lookup stepName with
     | none => .error (.missingStep stepName)
     | some out =>
       match out.output.getPath path with
       | some v => .ok v
       | none => .error (.missingPath stepName path))
  | .pair a b, ctx =>
    (match resolveTemplate a ctx, resolveTemplate b ctx with
     | .ok va, .ok vb => .ok (.list [va, vb])
     | .error e, _ => .error e
     | .ok _, .error e => .error e)

mutual

/-- Height of the action tree; children are strictly shallower, so no action
can be its own (transitive) successor. -/
def Action.depth : Action → Nat
  | .code _ _ _ _ _ next _ => 1 + Action.optDepth next
  | .branch _ _ _ onS onF _ => 1 + max (Action.optDepth onS) (Action.optDepth onF)
  | .loopOnItems _ _ _ first next _ => 1 + max (Action.optDepth first) (Action.optDepth next)
  | .piece _ _ _ _ _ _ next _ => 1 + Action.optDepth next

/-- Height of an optional sub-chain. -/
def Action.optDepth : Option Action → Nat
  | none => 0
  | some a => Action.depth a

end

/-- Mock hooks for witnesses: code echoes the action name, pieces return
null, a condition holds exactly when its operator field is `T`, and every
items-expression resolves to the empty sequence. -/
def mockHooks : EngineHooks where
  runCode := fun n _ => .ok (.str n)
  runPiece := fun _ _ => .ok .null
  evalCondition := fun c _ => c.operatorName = "T"
  resolveItems := fun _ _ => []

/-- Mock hooks whose code runner fails on every attempt. -/
def mockFailHooks : EngineHooks where
  runCode := fun n k => .error (n ++ " failed at attempt " ++ toString k)
  runPiece := fun _ _ => .ok .null
  evalCondition := fun c _ => c.operatorName = "T"
  resolveItems := fun _ _ => []

/-- The mock Engine Constants with all defaults. -/
def mockConstants : EngineConstants := generateMockEngineConstants {}

/-- Mock Engine Constants with a three-attempt exponential retry policy. -/
def retry3Constants : EngineConstants :=
  generateMockEngineConstants { retryConstants := some ⟨3, 2, 5⟩ }

end Engine

/-- A folder holding a piece that loads and validates cleanly. -/
def goodPieceFolder : PieceFolder where
  path := "/project/dist/packages/pieces/community/alpha"
  packageJson := some ⟨"@activepieces/piece-alpha", "0.1.0", []⟩
  piece := some ⟨none, none, "Alpha", none⟩

/-- A second clean piece folder with a display name sorting before `Alpha`. -/
def earlyPieceFolder : PieceFolder where
  path := "/project/dist/packages/pieces/community/aardvark"
  packageJson := some ⟨"@activepieces/piece-aardvark", "0.2.0", []⟩
  piece := some ⟨some "0.5.0", some "1.0.0", "aardvark", none⟩

/-- A folder whose package.json read fails, so loading yields null. -/
def badPieceFolder : PieceFolder where
  path := "/project/dist/packages/pieces/community/broken"
  packageJson := none
  piece := some ⟨none, none, "Broken", none⟩

/-- A folder whose piece declares an invalid minimum release bound. -/
def invalidReleaseFolder : PieceFolder where
  path := "/project/dist/packages/pieces/community/badsemver"
  packageJson := some ⟨"@activepieces/piece-badsemver", "0.1.0", []⟩
  piece := some ⟨some "not-a-version", none, "BadSemver", none⟩

/-- Metadata of an enterprise-directory piece missing the PREMIUM category. -/
def eeWithoutPremium : PieceMetadata where
  name := "@activepieces/piece-ent"
  displayName := "Ent"
  version := "0.1.0"
  minimumSupportedRelease := some "0.30.0"
  maximumSupportedRelease := some "99999.99999.9999"
  directoryPath := some "/project/dist/packages/ee/pieces/ent"
  categories := none

/-- Metadata of a PREMIUM piece whose minimum release is below 0.27.1. -/
def premiumTooOld : PieceMetadata where
  name := "@activepieces/piece-prem"
  displayName := "Prem"
  version := "0.1.0"
  minimumSupportedRelease := some "0.20.0"
  maximumSupportedRelease := some "99999.99999.9999"
  directoryPath := some "/project/dist/packages/pieces/community/prem"
  categories := some [PieceCategory.PREMIUM]

/-! ## Theorems: piece discovery and validation (C8, C9, C10) -/

/-- A successfully loaded piece passed metadata validation. -/
theorem loadPieceFromFolder_ok (folder : PieceFolder) (m : PieceMetadata)
    (h : loadPieceFromFolder folder = some m) : validateMetadata m = .ok () := by
  unfold loadPieceFromFolder at h
  cases hpj : folder.packageJson with
  | none => rw [hpj] at h; exact absurd h (by simp)
  | some pj =>
    cases hpc : folder.piece with
    | none => rw [hpj, hpc] at h; exact absurd h (by simp)
    | some pc =>
      rw [hpj, hpc] at h
      simp only at h
      cases hv : validateMetadata (builtMetadata folder.path pj pc) with
      | ok u =>
        rw [hv] at h
        simp only [Option.some.injEq] at h
        subst h
        cases u
        exact hv
      | error e => rw [hv] at h; exact absurd h (by simp)

/-- C8: `findAllPieces` returns the metadata of every piece that loads and
validates successfully, sorted ascending by case-insensitive (uppercased)
display name; a folder whose load or validation fails yields null, is
filtered out, and does not abort the listing. -/
theorem findAllPieces_spec (folders : List PieceFolder) :
    List.Sorted byDisplayNameIgnoreCase (findAllPieces folders) ∧
    (findAllPieces folders).Perm (folders.filterMap loadPieceFromFolder) ∧
    (∀ m : PieceMetadata, m ∈ findAllPieces folders ↔
      ∃ f, f ∈ folders ∧ loadPieceFromFolder f = some m) ∧
    (∀ m : PieceMetadata, m ∈ findAllPieces folders → validateMetadata m = .ok ()) ∧
    (∀ (xs ys : List PieceFolder) (f : PieceFolder),
      loadPieceFromFolder f = none →
      findAllPieces (xs ++ f :: ys) = findAllPieces (xs ++ ys)) := by
  refine ⟨List.sorted_insertionSort _ _, List.perm_insertionSort _ _, ?_, ?_, ?_⟩
  · intro m
    unfold findAllPieces
    rw [(List.perm_insertionSort byDisplayNameIgnoreCase _).mem_iff]
    exact List.mem_filterMap
  · intro m hm
    unfold findAllPieces at hm
    rw [(List.perm_insertionSort byDisplayNameIgnoreCase _).mem_iff,
      List.mem_filterMap] at hm
    obtain ⟨f, _, hload⟩ := hm
    exact loadPieceFromFolder_ok f m hload
  · intro xs ys f hf
    unfold findAllPieces
    rw [List.filterMap_append, List.filterMap_append, List.filterMap_cons, hf]

/-- Witness for C8 at concrete folders: the broken folder loads to null and
its presence does not change the listing. -/
theorem findAllPieces_spec_witness :
    loadPieceFromFolder badPieceFolder = none ∧
    findAllPieces ([goodPieceFolder] ++ badPieceFolder :: [earlyPieceFolder]) =
      findAllPieces ([goodPieceFolder] ++ [earlyPieceFolder]) := by
  refine ⟨by decide, ?_⟩
  exact (findAllPieces_spec []).2.2.2.2 [goodPieceFolder] [earlyPieceFolder]
    badPieceFolder (by decide)

/-- C9: a missing minimum release bound defaults to 0.0.0 and a missing
maximum bound to 99999.99999.9999; validation of the two bounds errors exactly
when either is not valid semver or the minimum exceeds the maximum, and such
an error excludes the piece (the folder loads to null). -/
theorem loadPiece_release_defaults_spec :
    (∀ (path : String) (pj : PackageJson) (pc : PieceModule),
      pc.minimumSupportedRelease = none →
      (builtMetadata path pj pc).minimumSupportedRelease = some "0.0.0") ∧
    (∀ (path : String) (pj : PackageJson) (pc : PieceModule),
      pc.maximumSupportedRelease = none →
      (builtMetadata path pj pc).maximumSupportedRelease = some "99999.99999.9999") ∧
    (∀ a b : String,
      (∃ e, validateSupportedRelease (some a) (some b) = .error e) ↔
        (semverValid a = false ∨ semverValid b = false ∨ semverGt a b = true)) ∧
    (∀ (folder : PieceFolder) (pj : PackageJson) (pc : PieceModule),
      folder.packageJson = some pj → folder.piece = some pc →
      (semverValid (pc.minimumSupportedRelease.getD "0.0.0") = false ∨
        semverValid (pc.maximumSupportedRelease.getD "99999.99999.9999") = false ∨
        semverGt (pc.minimumSupportedRelease.getD "0.0.0")
          (pc.maximumSupportedRelease.getD "99999.99999.9999") = true) →
      loadPieceFromFolder folder = none) := by
  have hiff : ∀ a b : String,
      (∃ e, validateSupportedRelease (some a) (some b) = .error e) ↔
        (semverValid a = false ∨ semverValid b = false ∨ semverGt a b = true) := by
    intro a b
    cases hva : semverValid a <;> cases hvb : semverValid b <;>
      cases hg : semverGt a b <;>
      simp [validateSupportedRelease, hva, hvb, hg]
  refine ⟨?_, ?_, hiff, ?_⟩
  · intro path pj pc h
    simp [builtMetadata, h]
  · intro path pj pc h
    simp [builtMetadata, h]
  · intro folder pj pc hpj hpc hbad
    obtain ⟨e, he⟩ := (hiff _ _).2 hbad
    obtain ⟨path, opj, opc⟩ := folder
    simp only at hpj hpc
    subst hpj
    subst hpc
    have hvm : validateMetadata (builtMetadata path pj pc) = .error e := by
      unfold validateMetadata
      have hmin : (builtMetadata path pj pc).minimumSupportedRelease =
          some (pc.minimumSupportedRelease.getD "0.0.0") := rfl
      have hmax : (builtMetadata path pj pc).maximumSupportedRelease =
          some (pc.maximumSupportedRelease.getD "99999.99999.9999") := rfl
      rw [hmin, hmax, he]
    simp [loadPieceFromFolder, hvm]

/-- Witness for C9: the default minimum bound appears verbatim, and a concrete
folder with an unparsable minimum release loads to null. -/
theorem loadPiece_release_defaults_spec_witness :
    (builtMetadata "/p" ⟨"n", "1.0.0", []⟩
      ⟨none, none, "D", none⟩).minimumSupportedRelease = some "0.0.0" ∧
    loadPieceFromFolder invalidReleaseFolder = none := by
  refine ⟨loadPiece_release_defaults_spec.1 "/p" ⟨"n", "1.0.0", []⟩
    ⟨none, none, "D", none⟩ (by decide), ?_⟩
  exact loadPiece_release_defaults_spec.2.2.2 invalidReleaseFolder
    ⟨"@activepieces/piece-badsemver", "0.1.0", []⟩
    ⟨some "not-a-version", none, "BadSemver", none⟩
    (by decide) (by decide) (Or.inl (by decide))

/-- C10: the two premium rules — an `/ee/` piece must carry the PREMIUM
category and a PREMIUM piece must declare a minimum supported release of at
least 0.27.1; violating either rule is an error, and during loading such an
error excludes the piece. -/
theorem premium_rules_spec :
    (∀ (m : PieceMetadata) (d : String),
      m.directoryPath = some d → strIncludes d "/ee/" = true →
      (m.categories.getD []).contains PieceCategory.PREMIUM = false →
      ∃ e, validatePremiumPiece m = .error e) ∧
    (∀ m : PieceMetadata,
      (m.categories.getD []).contains PieceCategory.PREMIUM = true →
      (m.minimumSupportedRelease.getD "" = "" ∨
        semverLt (m.minimumSupportedRelease.getD "") "0.27.1" = true) →
      ∃ e, validatePremiumPiece m = .error e) ∧
    (∀ (folder : PieceFolder) (pj : PackageJson) (pc : PieceModule),
      folder.packageJson = some pj → folder.piece = some pc →
      (∃ e, validatePremiumPiece (builtMetadata folder.path pj pc) = .error e) →
      loadPieceFromFolder folder = none) := by
  have hexc : ∀ (r : Except String Unit), r ≠ .ok () → ∃ e, r = .error e := by
    intro r hr
    cases r with
    | ok u => cases u; exact absurd rfl hr
    | error e => exact ⟨e, rfl⟩
  refine ⟨?_, ?_, ?_⟩
  · intro m d hdir hinc hcat
    apply hexc
    intro hok
    unfold validatePremiumPiece at hok
    split at hok
    · exact absurd hok (by simp)
    · rename_i h1
      apply h1
      simp only [hdir, hinc, hcat]
      rfl
  · intro m hcat hmin
    apply hexc
    intro hok
    unfold validatePremiumPiece at hok
    split at hok
    · exact absurd hok (by simp)
    · split at hok
      · exact absurd hok (by simp)
      · rename_i h1 h2
        apply h2
        rw [hcat]
        rcases hmin with h | h
        · simp [h]
        · simp [h]
  · intro folder pj pc hpj hpc hprem
    obtain ⟨e, he⟩ := hprem
    obtain ⟨path, opj, opc⟩ := folder
    simp only at hpj hpc he
    subst hpj
    subst hpc
    have hvm : ∃ e1, validateMetadata (builtMetadata path pj pc) = .error e1 := by
      unfold validateMetadata
      cases hsr : validateSupportedRelease
          (builtMetadata path pj pc).minimumSupportedRelease
          (builtMetadata path pj pc).maximumSupportedRelease with
      | ok u => exact ⟨e, he⟩
      | error e2 => exact ⟨e2, rfl⟩
    obtain ⟨e1, he1⟩ := hvm
    simp [loadPieceFromFolder, he1]

/-- Witness for C10: the concrete enterprise piece without the PREMIUM
category and the concrete PREMIUM piece below 0.27.1 both fail validation. -/
theorem premium_rules_spec_witness :
    (∃ e, validatePremiumPiece eeWithoutPremium = .error e) ∧
    (∃ e, validatePremiumPiece premiumTooOld = .error e) := by
  constructor
  · exact premium_rules_spec.1 eeWithoutPremium
      "/project/dist/packages/ee/pieces/ent" (by decide) (by decide) (by decide)
  · exact premium_rules_spec.2.1 premiumTooOld (by decide) (Or.inr (by decide))

/-! ## Theorems: the flow-execution engine (C1..C7) -/

namespace Engine

/-- C2: Engine Constants are determined by exactly the fifteen per-run fields
of the constructor (no hidden state), the projections read back exactly the
constructed values (read-only lifecycle), and the mock constructor fills this
role set with its defaults. -/
theorem engineConstants_fields_spec :
    (∀ c1 c2 : EngineConstants,
      c1.flowId = c2.flowId → c1.flowVersionId = c2.flowVersionId →
      c1.flowVersionState = c2.flowVersionState → c1.flowRunId = c2.flowRunId →
      c1.publicUrl = c2.publicUrl → c1.internalApiUrl = c2.internalApiUrl →
      c1.retryConstants = c2.retryConstants → c1.engineToken = c2.engineToken →
      c1.projectId = c2.projectId → c1.variableService = c2.variableService →
      c1.testSingleStepMode = c2.testSingleStepMode →
      c1.progressUpdateType = c2.progressUpdateType →
      c1.serverHandlerId = c2.serverHandlerId →
      c1.httpRequestId = c2.httpRequestId →
      c1.resumePayload = c2.resumePayload → c1 = c2) ∧
    (∀ (a1 a2 : String) (a3 : FlowVersionState) (a4 a5 a6 : String)
      (a7 : RetryConstants) (a8 a9 : String) (a10 : VariableService)
      (a11 : Bool) (a12 : ProgressUpdateType) (a13 a14 : Option String)
      (a15 : Option Value),
      (EngineConstants.mk a1 a2 a3 a4 a5 a6 a7 a8 a9 a10 a11 a12 a13 a14 a15).flowId = a1 ∧
      (EngineConstants.mk a1 a2 a3 a4 a5 a6 a7 a8 a9 a10 a11 a12 a13 a14 a15).flowVersionId = a2 ∧
      (EngineConstants.mk a1 a2 a3 a4 a5 a6 a7 a8 a9 a10 a11 a12 a13 a14 a15).flowVersionState = a3 ∧
      (EngineConstants.mk a1 a2 a3 a4 a5 a6 a7 a8 a9 a10 a11 a12 a13 a14 a15).flowRunId = a4 ∧
      (EngineConstants.mk a1 a2 a3 a4 a5 a6 a7 a8 a9 a10 a11 a12 a13 a14 a15).publicUrl = a5 ∧
      (EngineConstants.mk a1 a2 a3 a4 a5 a6 a7 a8 a9 a10 a11 a12 a13 a14 a15).internalApiUrl = a6 ∧
      (EngineConstants.mk a1 a2 a3 a4 a5 a6 a7 a8 a9 a10 a11 a12 a13 a14 a15).retryConstants = a7 ∧
      (EngineConstants.mk a1 a2 a3 a4 a5 a6 a7 a8 a9 a10 a11 a12 a13 a14 a15).engineToken = a8 ∧
      (EngineConstants.mk a1 a2 a3 a4 a5 a6 a7 a8 a9 a10 a11 a12 a13 a14 a15).projectId = a9 ∧
      (EngineConstants.mk a1 a2 a3 a4 a5 a6 a7 a8 a9 a10 a11 a12 a13 a14 a15).variableService = a10 ∧
      (EngineConstants.mk a1 a2 a3 a4 a5 a6 a7 a8 a9 a10 a11 a12 a13 a14 a15).testSingleStepMode = a11 ∧
      (EngineConstants.mk a1 a2 a3 a4 a5 a6 a7 a8 a9 a10 a11 a12 a13 a14 a15).progressUpdateType = a12 ∧
      (EngineConstants.mk a1 a2 a3 a4 a5 a6 a7 a8 a9 a10 a11 a12 a13 a14 a15).serverHandlerId = a13 ∧
      (EngineConstants.mk a1 a2 a3 a4 a5 a6 a7 a8 a9 a10 a11 a12 a13 a14 a15).httpRequestId = a14 ∧
      (EngineConstants.mk a1 a2 a3 a4 a5 a6 a7 a8 a9 a10 a11 a12 a13 a14 a15).resumePayload = a15) ∧
    (generateMockEngineConstants {} = EngineConstants.mk "flowId" "flowVersionId"
      FlowVersionState.DRAFT "flowRunId" "http://127.0.0.1:3000" "http://127.0.0.1:3000"
      ⟨2, 1, 1⟩ "engineToken" "projectId"
      ⟨"projectId", "engineToken", "http://127.0.0.1:3000"⟩ false
      ProgressUpdateType.NONE none none none) := by
  refine ⟨?_, ?_, rfl⟩
  · intro c1 c2
    cases c1
    cases c2
    intro h1 h2 h3 h4 h5 h6 h7 h8 h9 h10 h11 h12 h13 h14 h15
    simp_all
  · intros
    exact ⟨rfl, rfl, rfl, rfl, rfl, rfl, rfl, rfl, rfl, rfl, rfl, rfl, rfl, rfl, rfl⟩

/-- Witness for C2: the extensionality part applied to the mock constants. -/
theorem engineConstants_fields_spec_witness :
    generateMockEngineConstants {} = EngineConstants.mk "flowId" "flowVersionId"
      FlowVersionState.DRAFT "flowRunId" "http://127.0.0.1:3000" "http://127.0.0.1:3000"
      ⟨2, 1, 1⟩ "engineToken" "projectId"
      ⟨"projectId", "engineToken", "http://127.0.0.1:3000"⟩ false
      ProgressUpdateType.NONE none none none :=
  engineConstants_fields_spec.1 (generateMockEngineConstants {}) _
    rfl rfl rfl rfl rfl rfl rfl rfl rfl rfl rfl rfl rfl rfl rfl

/-- C3: resolving a reference whose step name is absent from the Run Context
fails with the distinct missing-step resolution error, and a successful
resolution implies every referenced step name is present in the context —
never a silent empty or undefined substitution. -/
theorem resolver_missing_step_spec :
    (∀ (stepName : String) (path : List String) (ctx : RunContext),
      ctx.lookup stepName = none →
      resolveTemplate (.ref stepName path) ctx = .error (.missingStep stepName)) ∧
    (∀ (t : Template) (ctx : RunContext) (v : Value),
      resolveTemplate t ctx = .ok v →
      ∀ n ∈ templateRefs t, (ctx.lookup n).isSome = true) := by
  constructor
  · intro stepName path ctx h
    unfold resolveTemplate
    rw [h]
  · intro t
    induction t with
    | lit s =>
      intro ctx v _ n hn
      simp [templateRefs] at hn
    | ref stepName path =>
      intro ctx v hok n hn
      simp only [templateRefs, List.mem_singleton] at hn
      subst hn
      unfold resolveTemplate at hok
      cases hl : ctx.lookup n with
      | none => rw [hl] at hok; exact absurd hok (by simp)
      | some out => simp [hl]
    | pair a b iha ihb =>
      intro ctx v hok n hn
      simp only [templateRefs, List.mem_append] at hn
      unfold resolveTemplate at hok
      cases ha : resolveTemplate a ctx with
      | error e => rw [ha] at hok; exact absurd hok (by simp)
      | ok va =>
        cases hb : resolveTemplate b ctx with
        | error e => rw [ha, hb] at hok; exact absurd hok (by simp)
        | ok vb =>
          rcases hn with hn | hn
          · exact iha ctx va ha n hn
          · exact ihb ctx vb hb n hn

/-- Witness for C3: an empty context resolves a reference to step `x` to the
missing-step error. -/
theorem resolver_missing_step_spec_witness :
    resolveTemplate (.ref "x" []) ([] : RunContext) = .error (.missingStep "x") :=
  resolver_missing_step_spec.1 "x" [] [] rfl

/-- The retry loop never makes more invocations than allowed. -/
theorem runAttemptsAux_count_le (run : Nat → PieceStepResult) (rc : RetryConstants) :
    ∀ (remaining attempt : Nat),
      (runAttemptsAux run rc attempt remaining).2.1 ≤ remaining := by
  intro remaining
  induction remaining using Nat.strong_induction_on with
  | _ n ih =>
    match n with
    | 0 => intro attempt; simp [runAttemptsAux]
    | 1 => intro attempt; simp [runAttemptsAux]
    | r + 2 =>
      intro attempt
      have hrec := ih (r + 1) (by omega) (attempt + 1)
      simp only [runAttemptsAux]
      cases run attempt with
      | ok v => simp
      | paused => simp
      | err e =>
        simp only
        omega

/-- A three-attempt policy with a runner failing every attempt makes exactly
three invocations, with the two backoff delays, and ends in an error. -/
theorem runAttempts_always_fail_three (run : Nat → PieceStepResult)
    (rc : RetryConstants) (hmax : rc.maxAttempts = 3)
    (hfail : ∀ k, ∃ e, run k = .err e) :
    (runAttempts run rc).2.1 = 3 ∧
      (runAttempts run rc).2.2 = [retryDelay rc 1, retryDelay rc 2] ∧
      (runAttempts run rc).1 = run 3 := by
  obtain ⟨e1, h1⟩ := hfail 1
  obtain ⟨e2, h2⟩ := hfail 2
  unfold runAttempts
  rw [hmax]
  simp [runAttemptsAux, h1, h2]

/-- C1: retry-on-failure follows the Engine Constants retry policy: the delay
after failed attempt k (before attempt k+1) is retryInterval *
retryExponential ^ (k - 1), invocations are capped at maxAttempts, an action
with maxAttempts = 3 that fails every attempt is invoked exactly 3 times with
non-decreasing inter-attempt delays, and the run then fails attributing the
originating action. -/
theorem retry_policy_spec :
    (∀ (rc : RetryConstants) (k : Nat),
      retryDelay rc k = rc.retryInterval * rc.retryExponential ^ (k - 1)) ∧
    (∀ (run : Nat → PieceStepResult) (rc : RetryConstants),
      (runAttempts run rc).2.1 ≤ rc.maxAttempts) ∧
    (∀ (run : Nat → PieceStepResult) (rc : RetryConstants),
      rc.maxAttempts = 3 → (∀ k, ∃ e, run k = .err e) →
      (runAttempts run rc).2.1 = 3 ∧
        (runAttempts run rc).2.2 = [retryDelay rc 1, retryDelay rc 2] ∧
        (1 ≤ rc.retryExponential →
          List.Chain' (fun x y => x ≤ y) (runAttempts run rc).2.2)) ∧
    (∀ (hooks : EngineHooks) (constants : EngineConstants) (name : String)
      (input : List (String × String)) (next : Option Action)
      (fuel : Nat) (s : FlowState),
      s.status = .running →
      constants.retryConstants.maxAttempts = 3 →
      (∀ k, ∃ e, hooks.runCode name k = .error e) →
      ∃ msg, executeChain hooks constants (fuel + 1)
          (some (buildCodeAction name input (some ⟨false, true⟩) next)) s =
        some ⟨s.ctx ++ [(name, ⟨.null, false, some msg⟩)],
          s.trace ++ [name], .failedAt name msg⟩) := by
  refine ⟨fun rc k => rfl, ?_, ?_, ?_⟩
  · intro run rc
    exact runAttemptsAux_count_le run rc rc.maxAttempts 1
  · intro run rc hmax hfail
    obtain ⟨hcount, hdelays, _⟩ := runAttempts_always_fail_three run rc hmax hfail
    refine ⟨hcount, hdelays, ?_⟩
    intro hexp
    rw [hdelays]
    refine List.chain'_cons.2 ⟨?_, List.chain'_singleton _⟩
    show rc.retryInterval * rc.retryExponential ^ (1 - 1) ≤
      rc.retryInterval * rc.retryExponential ^ (2 - 1)
    exact Nat.mul_le_mul_left _ (Nat.pow_le_pow_right hexp (by omega))
  · intro hooks constants name input next fuel s hs hmax hfail
    have hf : ∀ k, ∃ e,
        (fun k => codeResult (hooks.runCode name k)) k = PieceStepResult.err e := by
      intro k
      obtain ⟨e, he⟩ := hfail k
      exact ⟨e, by simp [codeResult, he]⟩
    obtain ⟨hcount, hdelays, hres⟩ := runAttempts_always_fail_three
      (fun k => codeResult (hooks.runCode name k)) constants.retryConstants hmax hf
    obtain ⟨e3, he3⟩ := hf 3
    obtain ⟨ctx, tr, st⟩ := s
    simp only at hs
    subst hs
    refine ⟨e3, ?_⟩
    have he3b : codeResult (hooks.runCode name 3) = PieceStepResult.err e3 := he3
    simp [executeChain, buildCodeAction, Action.validFlag, Action.name,
      runStepWithPolicy, continuesOnFailure, hres, he3b]

/-- Witness for C1: a concrete always-failing runner under maxAttempts 3 with
interval 5 and exponent 2, and the concrete failing flow. -/
theorem retry_policy_spec_witness :
    (runAttempts (fun _ => PieceStepResult.err "boom") ⟨3, 2, 5⟩).2.1 = 3 ∧
    List.Chain' (fun x y => x ≤ y)
      (runAttempts (fun _ => PieceStepResult.err "boom") ⟨3, 2, 5⟩).2.2 ∧
    (∃ msg, executeChain mockFailHooks retry3Constants (0 + 1)
        (some (buildCodeAction "x" [] (some ⟨false, true⟩) none))
        ⟨[], [], .running⟩ =
      some ⟨[("x", ⟨.null, false, some msg⟩)], ["x"], .failedAt "x" msg⟩) := by
  have h3 := retry_policy_spec.2.2.1 (fun _ => PieceStepResult.err "boom")
    ⟨3, 2, 5⟩ rfl (fun k => ⟨"boom", rfl⟩)
  refine ⟨h3.1, ?_, ?_⟩
  · exact h3.2.2 (by decide)
  · exact retry_policy_spec.2.2.2 mockFailHooks retry3Constants "x" [] none 0
      ⟨[], [], .running⟩ rfl rfl
      (fun k => ⟨"x" ++ " failed at attempt " ++ toString k, rfl⟩)

/-- C4: a BRANCH action carries an ordered list of condition groups (AND
inside a group, OR across groups) plus the two optional sub-chains; when the
single condition group evaluates true the interpreter records the branch and
continues into the onSuccess chain — the onFailure chain plays no part in the
result — and vice versa when it evaluates false. -/
theorem branch_selection_spec :
    (∀ (condition : BranchCondition) (onS onF : Option Action),
      buildActionWithOneCondition condition onS onF =
        .branch "branch" "Your Branch Name" [[condition]] onS onF true) ∧
    (∀ (eval : BranchCondition → Bool) (c : BranchCondition),
      evalConditionGroups eval [[c]] = eval c) ∧
    (∀ (hooks : EngineHooks) (constants : EngineConstants) (fuel : Nat)
      (c : BranchCondition) (onS onF : Option Action) (s : FlowState),
      s.status = .running → hooks.evalCondition c s.ctx = true →
      executeChain hooks constants (fuel + 1)
          (some (buildActionWithOneCondition c onS onF)) s =
        executeChain hooks constants fuel onS
          ⟨s.ctx ++ [("branch", ⟨.bool true, true, none⟩)],
            s.trace ++ ["branch"], .running⟩) ∧
    (∀ (hooks : EngineHooks) (constants : EngineConstants) (fuel : Nat)
      (c : BranchCondition) (onS onF : Option Action) (s : FlowState),
      s.status = .running → hooks.evalCondition c s.ctx = false →
      executeChain hooks constants (fuel + 1)
          (some (buildActionWithOneCondition c onS onF)) s =
        executeChain hooks constants fuel onF
          ⟨s.ctx ++ [("branch", ⟨.bool false, true, none⟩)],
            s.trace ++ ["branch"], .running⟩) := by
  refine ⟨fun c onS onF => rfl, ?_, ?_, ?_⟩
  · intro eval c
    simp [evalConditionGroups]
  · intro hooks constants fuel c onS onF s hs hcond
    obtain ⟨ctx, tr, st⟩ := s
    simp only at hs hcond
    subst hs
    simp [executeChain, buildActionWithOneCondition, Action.validFlag,
      evalConditionGroups, hcond]
  · intro hooks constants fuel c onS onF s hs hcond
    obtain ⟨ctx, tr, st⟩ := s
    simp only at hs hcond
    subst hs
    simp [executeChain, buildActionWithOneCondition, Action.validFlag,
      evalConditionGroups, hcond]

/-- Witness for C4: with the mock hooks a true condition enters the success
chain and a false condition enters the failure chain. -/
theorem branch_selection_spec_witness :
    executeChain mockHooks mockConstants (1 + 1)
        (some (buildActionWithOneCondition ⟨"a", "b", "T"⟩
          (some (buildCodeAction "yes" [] none none))
          (some (buildCodeAction "no" [] none none))))
        ⟨[], [], .running⟩ =
      executeChain mockHooks mockConstants 1
        (some (buildCodeAction "yes" [] none none))
        ⟨[("branch", ⟨.bool true, true, none⟩)], ["branch"], .running⟩ ∧
    executeChain mockHooks mockConstants (1 + 1)
        (some (buildActionWithOneCondition ⟨"a", "b", "F"⟩
          (some (buildCodeAction "yes" [] none none))
          (some (buildCodeAction "no" [] none none))))
        ⟨[], [], .running⟩ =
      executeChain mockHooks mockConstants 1
        (some (buildCodeAction "no" [] none none))
        ⟨[("branch", ⟨.bool false, true, none⟩)], ["branch"], .running⟩ := by
  constructor
  · exact branch_selection_spec.2.2.1 mockHooks mockConstants 1 ⟨"a", "b", "T"⟩
      (some (buildCodeAction "yes" [] none none))
      (some (buildCodeAction "no" [] none none))
      ⟨[], [], .running⟩ rfl (by decide)
  · exact branch_selection_spec.2.2.2 mockHooks mockConstants 1 ⟨"a", "b", "F"⟩
      (some (buildCodeAction "yes" [] none none))
      (some (buildCodeAction "no" [] none none))
      ⟨[], [], .running⟩ rfl (by decide)

/-- C5: a LOOP_ON_ITEMS action whose items expression resolves to the empty
sequence records an empty iteration list, runs zero body iterations (the
result does not depend on the body chain), and does not fail the run: a flow
consisting of that loop alone succeeds. -/
theorem loop_empty_items_spec :
    (∀ (hooks : EngineHooks) (constants : EngineConstants) (fuel : Nat)
      (name displayName itemsExpr : String) (first next : Option Action)
      (s : FlowState),
      s.status = .running → hooks.resolveItems itemsExpr s.ctx = [] →
      executeChain hooks constants (fuel + 1 + 1)
          (some (.loopOnItems name displayName itemsExpr first next true)) s =
        executeChain hooks constants (fuel + 1) next
          ⟨s.ctx ++ [(name, ⟨.list [], true, none⟩)],
            s.trace ++ [name], .running⟩) ∧
    (∀ (hooks : EngineHooks) (constants : EngineConstants) (fuel : Nat)
      (name loopItems : String) (first : Option Action) (s : FlowState),
      s.status = .running → hooks.resolveItems loopItems s.ctx = [] →
      executeChain hooks constants (fuel + 1 + 1)
          (some (buildSimpleLoopAction name loopItems first)) s =
        some ⟨s.ctx ++ [(name, ⟨.list [], true, none⟩)],
          s.trace ++ [name], .running⟩) ∧
    (∀ (hooks : EngineHooks) (constants : EngineConstants) (fuel : Nat)
      (name loopItems : String) (first : Option Action),
      hooks.resolveItems loopItems [] = [] →
      executeFlow hooks constants (fuel + 1 + 1)
          (some (buildSimpleLoopAction name loopItems first)) =
        some (.succeeded [(name, ⟨.list [], true, none⟩)])) := by
  have hchain : ∀ (hooks : EngineHooks) (constants : EngineConstants) (fuel : Nat)
      (name displayName itemsExpr : String) (first next : Option Action)
      (ctx : RunContext) (tr : List String),
      hooks.resolveItems itemsExpr ctx = [] →
      executeChain hooks constants (fuel + 1 + 1)
          (some (.loopOnItems name displayName itemsExpr first next true)) ⟨ctx, tr, .running⟩ =
        executeChain hooks constants (fuel + 1) next
          ⟨ctx ++ [(name, ⟨.list [], true, none⟩)], tr ++ [name], .running⟩ := by
    intro hooks constants fuel name displayName itemsExpr first next ctx tr hitems
    simp [executeChain, Action.validFlag, hitems, executeLoopItems]
  refine ⟨?_, ?_, ?_⟩
  · intro hooks constants fuel name displayName itemsExpr first next s hs hitems
    obtain ⟨ctx, tr, st⟩ := s
    simp only at hs hitems
    subst hs
    exact hchain hooks constants fuel name displayName itemsExpr first next ctx tr hitems
  · intro hooks constants fuel name loopItems first s hs hitems
    obtain ⟨ctx, tr, st⟩ := s
    simp only at hs hitems
    subst hs
    unfold buildSimpleLoopAction
    rw [hchain hooks constants fuel name "Loop" loopItems first none ctx tr hitems]
    simp [executeChain]
  · intro hooks constants fuel name loopItems first hitems
    unfold executeFlow buildSimpleLoopAction
    rw [hchain hooks constants fuel name "Loop" loopItems first none [] [] hitems]
    simp [executeChain]

/-- Witness for C5: the mock hooks resolve every items expression to the
empty sequence, so a lone loop over it succeeds with zero iterations. -/
theorem loop_empty_items_spec_witness :
    executeFlow mockHooks mockConstants (0 + 1 + 1)
        (some (buildSimpleLoopAction "loop" "emptyItems"
          (some (buildCodeAction "body" [] none none)))) =
      some (.succeeded [("loop", ⟨.list [], true, none⟩)]) :=
  loop_empty_items_spec.2.2 mockHooks mockConstants 0 "loop" "emptyItems"
    (some (buildCodeAction "body" [] none none)) rfl

/-- C6: every non-branching action kind (CODE, LOOP_ON_ITEMS, PIECE) carries
an optional nextAction; a BRANCH carries none — its continuations are the two
conditional sub-chains.  In the tree model every directly owned child is
strictly shallower than its owner, so sub-chains are exclusively owned and no
action is its own (transitive) successor: no cycles. -/
theorem action_graph_shape_spec :
    (∀ (n dn : String) (input : List (String × String)) (sc : SourceCode)
      (eh : Option ActionErrorHandlingOptions) (next : Option Action) (v : Bool),
      (Action.code n dn input sc eh next v).nextActionOf = next) ∧
    (∀ (n dn itemsExpr : String) (first next : Option Action) (v : Bool),
      (Action.loopOnItems n dn itemsExpr first next v).nextActionOf = next) ∧
    (∀ (n dn pn an : String) (input : List (String × String))
      (eh : Option ActionErrorHandlingOptions) (next : Option Action) (v : Bool),
      (Action.piece n dn pn an input eh next v).nextActionOf = next) ∧
    (∀ a : Action, a.isBranch = true →
      a.nextActionOf = none ∧
        ∃ n dn conds onS onF v, a = .branch n dn conds onS onF v) ∧
    (∀ a b : Action, b ∈ a.childActions → b.depth < a.depth) ∧
    (∀ a : Action, ¬ Relation.TransGen (fun x y => x ∈ y.childActions) a a) := by
  have hdepth : ∀ a b : Action, b ∈ a.childActions → b.depth < a.depth := by
    intro a b hb
    cases a with
    | code n dn input sc eh next v =>
      simp only [Action.childActions, Option.mem_toList, Option.mem_def] at hb
      subst hb
      simp [Action.depth, Action.optDepth]
    | branch n dn conds onS onF v =>
      simp only [Action.childActions, List.mem_append, Option.mem_toList,
        Option.mem_def] at hb
      rcases hb with hb | hb
      · subst hb
        have h1 := Nat.le_max_left (Action.depth b) (Action.optDepth onF)
        simp only [Action.depth, Action.optDepth]
        omega
      · subst hb
        have h1 := Nat.le_max_right (Action.optDepth onS) (Action.depth b)
        simp only [Action.depth, Action.optDepth]
        omega
    | loopOnItems n dn itemsExpr first next v =>
      simp only [Action.childActions, List.mem_append, Option.mem_toList,
        Option.mem_def] at hb
      rcases hb with hb | hb
      · subst hb
        have h1 := Nat.le_max_left (Action.depth b) (Action.optDepth next)
        simp only [Action.depth, Action.optDepth]
        omega
      · subst hb
        have h1 := Nat.le_max_right (Action.optDepth first) (Action.depth b)
        simp only [Action.depth, Action.optDepth]
        omega
    | piece n dn pn an input eh next v =>
      simp only [Action.childActions, Option.mem_toList, Option.mem_def] at hb
      subst hb
      simp [Action.depth, Action.optDepth]
  refine ⟨fun _ _ _ _ _ _ _ => rfl, fun _ _ _ _ _ _ => rfl,
    fun _ _ _ _ _ _ _ _ => rfl, ?_, hdepth, ?_⟩
  · intro a hbr
    cases a with
    | code n dn input sc eh next v => exact absurd hbr (by simp [Action.isBranch])
    | branch n dn conds onS onF v =>
      exact ⟨rfl, n, dn, conds, onS, onF, v, rfl⟩
    | loopOnItems n dn itemsExpr first next v =>
      exact absurd hbr (by simp [Action.isBranch])
    | piece n dn pn an input eh next v =>
      exact absurd hbr (by simp [Action.isBranch])
  · intro a h
    have hlt : ∀ x y : Action,
        Relation.TransGen (fun p q => p ∈ q.childActions) x y →
        x.depth < y.depth := by
      intro x y hxy
      induction hxy with
      | single h1 => exact hdepth _ _ h1
      | tail _ h2 ih => exact lt_trans ih (hdepth _ _ h2)
    exact absurd (hlt a a h) (lt_irrefl _)

/-- Witness for C6: a concrete branch carries no nextAction, and a concrete
successor is strictly shallower than its owner. -/
theorem action_graph_shape_spec_witness :
    (buildActionWithOneCondition ⟨"a", "b", "T"⟩ none none).nextActionOf = none ∧
    (buildCodeAction "x" [] none none).depth <
      (buildCodeAction "y" [] none (some (buildCodeAction "x" [] none none))).depth := by
  constructor
  · exact (action_graph_shape_spec.2.2.2.1
      (buildActionWithOneCondition ⟨"a", "b", "T"⟩ none none) rfl).1
  · exact action_graph_shape_spec.2.2.2.2.1
      (buildCodeAction "y" [] none (some (buildCodeAction "x" [] none none)))
      (buildCodeAction "x" [] none none)
      (by simp [buildCodeAction, Action.childActions])

/-- Executing a linear code chain whose runner always succeeds appends one
entry per action, in order, and stays running. -/
theorem executeChain_linearChain (hooks : EngineHooks) (constants : EngineConstants)
    (hok : ∀ n k, ∃ v, hooks.runCode n k = .ok v) :
    ∀ (names : List String) (ctx : RunContext) (tr : List String),
      ∃ entries : RunContext,
        executeChain hooks constants (names.length + 1) (linearChain names)
            ⟨ctx, tr, .running⟩ =
          some ⟨ctx ++ entries, tr ++ names, .running⟩ ∧
        entries.map Prod.fst = names := by
  intro names
  induction names with
  | nil =>
    intro ctx tr
    exact ⟨[], by simp [linearChain, executeChain], rfl⟩
  | cons n rest ih =>
    intro ctx tr
    obtain ⟨v, hv⟩ := hok n 1
    obtain ⟨entries, heq, hmap⟩ := ih (ctx ++ [(n, ⟨v, true, none⟩)]) (tr ++ [n])
    refine ⟨(n, ⟨v, true, none⟩) :: entries, ?_, by simp [hmap]⟩
    show executeChain hooks constants (rest.length + 1 + 1)
        (some (buildCodeAction n [] none (linearChain rest))) ⟨ctx, tr, .running⟩ = _
    simp only [executeChain, buildCodeAction, Action.validFlag, Action.name,
      runStepWithPolicy, continuesOnFailure, codeResult, hv]
    simp only [Option.map_none', Option.getD_none, Bool.false_eq_true, if_false]
    rw [heq]
    simp

/-- C7: a flow that is a linear chain of N code actions in which no action
fails returns SUCCEEDED with a Run Context of exactly N entries, one per
action name, in execution order. -/
theorem linear_chain_success_spec (hooks : EngineHooks) (constants : EngineConstants)
    (names : List String) (hok : ∀ n k, ∃ v, hooks.runCode n k = .ok v) :
    ∃ ctx : RunContext,
      executeFlow hooks constants (names.length + 1) (linearChain names) =
          some (.succeeded ctx) ∧
        ctx.map Prod.fst = names ∧ ctx.length = names.length := by
  obtain ⟨entries, heq, hmap⟩ := executeChain_linearChain hooks constants hok names [] []
  refine ⟨entries, ?_, hmap, ?_⟩
  · unfold executeFlow
    rw [heq]
    simp
  · rw [← hmap]
    simp

/-- Witness for C7: a two-action chain under the echoing mock hooks. -/
theorem linear_chain_success_spec_witness :
    ∃ ctx : RunContext,
      executeFlow mockHooks mockConstants
          ((["echo_step", "echo_step_1"] : List String).length + 1)
          (linearChain ["echo_step", "echo_step_1"]) = some (.succeeded ctx) ∧
        ctx.map Prod.fst = ["echo_step", "echo_step_1"] ∧
        ctx.length = (["echo_step", "echo_step_1"] : List String).length :=
  linear_chain_success_spec mockHooks mockConstants ["echo_step", "echo_step_1"]
    (fun n _ => ⟨.str n, rfl⟩)

end Engine
